import Mathlib

/-!
Verification of the timetable synthesis engine (`src/timetable.py` of the
Gen-timetable-Generator repository) against its natural-language
specification.

The calendar is fixed by `src/constants.py`: five named weekdays and four
named two-hour periods.  Entries, modules, lecturers and rooms are the
dictionary shapes consumed by the engine (`data['modules']` etc.).  Rooms in
their legacy plain-string form are not modelled; every room is the record
form `{name, capacity, allowed_programs}` described by the input contract.
Timetables are the `{'slots', 'lecturer_slots', 'room_slots'}` structure
built by `initialize_population` / `crossover`; a cell always holds a list
of entries (the dead `isinstance(..., dict)` branches of the source are
noted where they occur).
-/

inductive Day where
  | monday | tuesday | wednesday | thursday | friday
deriving DecidableEq, Repr

inductive TimeSlot where
  | t0800 | t1000 | t1200 | t1400
deriving DecidableEq, Repr

/-- DAYS from `src/constants.py`. -/
def DAYS : List Day := [.monday, .tuesday, .wednesday, .thursday, .friday]

/-- TIME_SLOTS from `src/constants.py`. -/
def TIME_SLOTS : List TimeSlot := [.t0800, .t1000, .t1200, .t1400]

/-- WEEKLY_MODULE_HOURS from `src/constants.py`. -/
def WEEKLY_MODULE_HOURS : Nat := 4

/-- FACULTY_DAILY_MAX_HOURS as defined locally in `src/timetable.py` line 29
(overriding the value in `constants.py`). -/
def FACULTY_DAILY_MAX_HOURS : Nat := 8

/-- POPULATION_SIZE from `src/timetable.py` line 30. -/
def POPULATION_SIZE : Nat := 200

/-- GENERATIONS from `src/timetable.py` line 31. -/
def GENERATIONS : Nat := 1000

/-- One timetable entry `{'module', 'lecturer', 'room'}`. -/
structure Entry where
  module : String
  lecturer : String
  room : String
deriving DecidableEq, Repr

/-- A module record of `data['modules']`.  `hours` models
`module.get('hours', WEEKLY_MODULE_HOURS)` (the key is taken as present). -/
structure CourseModule where
  code : String
  name : String
  hours : Nat
  target_groups : List (String × String)
deriving DecidableEq, Repr

/-- A lecturer record of `data['lecturers']`.  `max_daily` models
`lecturer.get('max_daily', 4)` as read by `validate_timetable`;
`validate_hard_constraints` itself never reads it. -/
structure Lecturer where
  id : String
  name : String
  modules : List String
  max_daily : Nat
deriving DecidableEq, Repr

/-- A room record of `data['rooms']` (dictionary form). -/
structure Room where
  name : String
  capacity : Nat
  allowed_programs : List String
deriving DecidableEq, Repr

/-- The domain data dictionary handed to the engine. -/
structure DomainData where
  modules : List CourseModule
  lecturers : List Lecturer
  rooms : List Room
  students_per_group : List ((String × String) × Nat)
deriving DecidableEq, Repr

/-- A candidate timetable: the primary cell map `slots` and the derived
indices `lecturer_slots` (keyed by lecturer id) and `room_slots` (keyed by
room name). -/
structure Timetable where
  slots : Day → TimeSlot → List Entry
  lecturer_slots : String → Day → TimeSlot → Option String
  room_slots : String → Day → TimeSlot → Option String

/-- `next((m for m in data['modules'] if m['code'] == code), None)`. -/
def findModule (d : DomainData) (code : String) : Option CourseModule :=
  d.modules.find? (fun m => m.code == code)

/-- `next((l for l in data['lecturers'] if l['name'] == name), None)`. -/
def findLecturer (d : DomainData) (name : String) : Option Lecturer :=
  d.lecturers.find? (fun l => l.name == name)

/-- `next((r for r in data['rooms'] if r['name'] == name), None)`. -/
def findRoom (d : DomainData) (name : String) : Option Room :=
  d.rooms.find? (fun r => r.name == name)

/-- `data.get('students_per_group', {}).get(g, 0)`. -/
def groupHeadcount (d : DomainData) (g : String × String) : Nat :=
  ((d.students_per_group.find? (fun p => p.1 == g)).map Prod.snd).getD 0

/-- Aggregate headcount of a module's target groups. -/
def moduleHeadcount (d : DomainData) (m : CourseModule) : Nat :=
  (m.target_groups.map (groupHeadcount d)).sum

/-- Inner loop of validation check 1: fold a module's target groups into the
set `scheduled_groups`, failing on a duplicate. -/
def addGroups : List (String × String) → List (String × String) →
    Option (List (String × String))
  | sched, [] => some sched
  | sched, g :: gs =>
    if sched.contains g then none else addGroups (g :: sched) gs

/-- Validation check 1, one cell: walk the entries, reject an unknown module
code, and reject two entries sharing a target group
(`src/timetable.py` lines 211-230). -/
def scanGroupConflicts (d : DomainData) :
    List (String × String) → List Entry → Bool
  | _, [] => true
  | sched, e :: rest =>
    match findModule d e.module with
    | none => false
    | some m =>
      match addGroups sched m.target_groups with
      | none => false
      | some sched2 => scanGroupConflicts d sched2 rest

def check_group_conflicts (t : Timetable) (d : DomainData) : Bool :=
  DAYS.all fun day => TIME_SLOTS.all fun slot =>
    scanGroupConflicts d [] (t.slots day slot)

/-- `sum(1 for s in TIME_SLOTS if any(e['lecturer'] == name for e in
timetable['slots'][day][s]))` (lines 248-250). -/
def lecturerDailySlotCount (t : Timetable) (day : Day) (name : String) : Nat :=
  (TIME_SLOTS.filter fun s =>
    (t.slots day s).any fun e => e.lecturer == name).length

/-- Validation check 2, one cell: no duplicated lecturer in the cell, and the
lecturer's daily slot count must not exceed FACULTY_DAILY_MAX_HOURS
(lines 232-253). -/
def scanLecturerConflicts (t : Timetable) (day : Day) :
    List String → List Entry → Bool
  | _, [] => true
  | sched, e :: rest =>
    if sched.contains e.lecturer then false
    else if FACULTY_DAILY_MAX_HOURS < lecturerDailySlotCount t day e.lecturer
    then false
    else scanLecturerConflicts t day (e.lecturer :: sched) rest

def check_lecturer_conflicts (t : Timetable) : Bool :=
  DAYS.all fun day => TIME_SLOTS.all fun slot =>
    scanLecturerConflicts t day [] (t.slots day slot)

/-- Validation check 3, one cell: no room used twice (lines 255-268). -/
def scanRoomConflicts : List String → List Entry → Bool
  | _, [] => true
  | sched, e :: rest =>
    if sched.contains e.room then false
    else scanRoomConflicts (e.room :: sched) rest

def check_room_conflicts (t : Timetable) : Bool :=
  DAYS.all fun day => TIME_SLOTS.all fun slot =>
    scanRoomConflicts [] (t.slots day slot)

/-- Validation check 4, one entry: the room must exist and the module's
aggregate headcount must fit its capacity (lines 270-296). -/
def entryCapacityOk (d : DomainData) (e : Entry) : Bool :=
  match findRoom d e.room with
  | none => false
  | some room =>
    match findModule d e.module with
    | none => false
    | some m => decide (moduleHeadcount d m ≤ room.capacity)

def check_room_capacity (t : Timetable) (d : DomainData) : Bool :=
  DAYS.all fun day => TIME_SLOTS.all fun slot =>
    (t.slots day slot).all (entryCapacityOk d)

/-- Validation check 5, one entry: the lecturer must exist and be qualified
for the entry's module (lines 298-313). -/
def entryLecturerQualified (d : DomainData) (e : Entry) : Bool :=
  match findLecturer d e.lecturer with
  | none => false
  | some l => l.modules.contains e.module

def check_lecturer_qualifications (t : Timetable) (d : DomainData) : Bool :=
  DAYS.all fun day => TIME_SLOTS.all fun slot =>
    (t.slots day slot).all (entryLecturerQualified d)

/-- Whether a cell contains an entry for the module
(`any(t and t['module'] == module['code'] for t in slot_entries)`). -/
def cellHasModule (entries : List Entry) (code : String) : Bool :=
  entries.any fun e => e.module == code

/-- Number of slots on `day` whose cell contains the module. -/
def moduleDailyCount (t : Timetable) (day : Day) (code : String) : Nat :=
  (TIME_SLOTS.filter fun s => cellHasModule (t.slots day s) code).length

/-- Number of (day, slot) cells containing an entry for the module
(`scheduled_sessions` of check 6, lines 320-333; cells are always entry
lists here, so the `dict` branch of the source is dead). -/
def moduleScheduledSessions (t : Timetable) (code : String) : Nat :=
  (DAYS.map fun day => moduleDailyCount t day code).sum

/-- Validation check 6: every module with a non-empty code is scheduled for
exactly `hours // 2` sessions, at most one per day (lines 315-346). -/
def check_module_hours (t : Timetable) (d : DomainData) : Bool :=
  d.modules.all fun m =>
    if m.code == "" then true
    else
      (moduleScheduledSessions t m.code == m.hours / 2) &&
      (DAYS.all fun day => decide (moduleDailyCount t day m.code ≤ 1))

/-- `validate_hard_constraints(timetable, data)` (`src/timetable.py` lines
208-352): the six hard-constraint checks in source order, each returning
False on its first violation.  The surrounding `try/except` cannot fire in
this total model; its `return False` is noted for claim C10. -/
def validate_hard_constraints (t : Timetable) (d : DomainData) : Bool :=
  check_group_conflicts t d &&
  check_lecturer_conflicts t &&
  check_room_conflicts t &&
  check_room_capacity t d &&
  check_lecturer_qualifications t d &&
  check_module_hours t d

/-- The ROOM RESTRICTION rule of `validate_timetable` (`src/timetable.py`
lines 1205-1225), as a per-entry flag: the room exists and has a non-empty
`allowed_programs`, and either the module has no target programs, or none of
its target programs is allowed in the room. -/
def entryRoomRestrictionFlag (d : DomainData) (e : Entry) : Bool :=
  match findRoom d e.room with
  | none => false
  | some room =>
    match findModule d e.module with
    | none => false
    | some m =>
      let module_programs := m.target_groups.map Prod.fst
      if room.allowed_programs.isEmpty then false
      else if module_programs.isEmpty then true
      else !(module_programs.any fun p => room.allowed_programs.contains p)

/-- Whether `validate_timetable` would report at least one ROOM RESTRICTION
violation for the timetable. -/
def validate_timetable_room_restriction (t : Timetable) (d : DomainData) :
    Bool :=
  DAYS.any fun day => TIME_SLOTS.any fun slot =>
    (t.slots day slot).any (entryRoomRestrictionFlag d)

/-- Scenario-D shaped domain data: module M targets only ("SWE","1.1"),
room R allows only program CS, lecturer L is qualified for M. -/
def dataD : DomainData :=
  { modules := [⟨"M", "ModM", 2, [("SWE", "1.1")]⟩],
    lecturers := [⟨"l1", "L", ["M"], 4⟩],
    rooms := [⟨"R", 100, ["CS"]⟩],
    students_per_group := [(("SWE", "1.1"), 30)] }

/-- A timetable that assigns module M to room R in the Monday 08:00 cell. -/
def ttD : Timetable :=
  { slots := fun day slot =>
      match day, slot with
      | .monday, .t0800 => [⟨"M", "L", "R"⟩]
      | _, _ => [],
    lecturer_slots := fun _ _ _ => none,
    room_slots := fun _ _ _ => none }

/-- Timetable where lecturer L (whose own max_daily is 2) teaches three
slots on Monday. -/
def tt6 : Timetable :=
  { slots := fun day slot =>
      match day, slot with
      | .monday, .t0800 => [⟨"A", "L", "R"⟩]
      | .monday, .t1000 => [⟨"B", "L", "R"⟩]
      | .monday, .t1200 => [⟨"C", "L", "R"⟩]
      | _, _ => [],
    lecturer_slots := fun _ _ _ => none,
    room_slots := fun _ _ _ => none }

/-- Domain data for the C6 counterexample: one lecturer with max_daily = 2,
qualified for three one-session modules. -/
def data6 : DomainData :=
  { modules := [⟨"A", "MA", 2, []⟩, ⟨"B", "MB", 2, []⟩, ⟨"C", "MC", 2, []⟩],
    lecturers := [⟨"l1", "L", ["A", "B", "C"], 2⟩],
    rooms := [⟨"R", 100, []⟩],
    students_per_group := [] }

/-- Empty domain data. -/
def data_empty : DomainData := ⟨[], [], [], []⟩

/-- A timetable with one entry whose module, lecturer and room are all
unknown. -/
def ttX : Timetable :=
  { slots := fun day slot =>
      match day, slot with
      | .monday, .t0800 => [⟨"X", "Y", "Z"⟩]
      | _, _ => [],
    lecturer_slots := fun _ _ _ => none,
    room_slots := fun _ _ _ => none }

/-- `initialize_population(data)` (`src/timetable.py` lines 35-206).  The
loop body (lines 40-201) builds POPULATION_SIZE candidate timetables by
randomized greedy placement; `candidates` abstracts that randomized
generation phase.  Lines 188-206 are modelled exactly: each candidate is
kept only if it passes `validate_hard_constraints` (a generation exception
likewise drops the candidate), and a `ValueError` with the fixed message is
raised when no candidate survives. -/
def init_population (candidates : List Timetable) (d : DomainData) :
    Except String (List Timetable) :=
  let population := candidates.filter fun t => validate_hard_constraints t d
  if population.isEmpty then
    Except.error "Failed to initialize any valid timetables"
  else Except.ok population

/-- The all-empty timetable (passes validation for empty domain data). -/
def goodT0 : Timetable :=
  ⟨fun _ _ => [], fun _ _ _ => none, fun _ _ _ => none⟩

/-- A batch of POPULATION_SIZE generated candidates in which exactly one
candidate (`ttX`, with a dangling module code) fails validation. -/
def c3cands : List Timetable := ttX :: List.replicate 199 goodT0

/-- `population[fitness_scores_batch.index(max_fitness)]` (line 762): the
first individual whose score equals the maximum. -/
def argmaxFirst (pop : List Timetable) (scores : List Int) (mx : Int) :
    Option Timetable :=
  ((pop.zip scores).find? fun p => p.2 == mx).map Prod.fst

/-- The local state of `generate_timetable`'s genetic-algorithm loop
(`src/timetable.py` lines 732-780).  `best_fitness = none` models the
initial `float('-inf')`.  `new_population` holds the most recently bred
population; per the source's indentation (line 782 sits OUTSIDE the `for`
loop), it is never installed as `population` inside the loop. -/
structure LoopState where
  population : List Timetable
  best_fitness : Option Int
  best_timetable : Option Timetable
  generations_without_improvement : Nat
  new_population : List Timetable

/-- Outcome of one generation body (lines 743-780). -/
inductive StepResult where
  | crashed
  | stopped (st : LoopState)
  | continues (st : LoopState)

/-- Strict `max_fitness > best_fitness` comparison of line 760, with `none`
as the initial `float('-inf')`. -/
def improvedB (bf : Option Int) (mx : Int) : Bool :=
  match bf with
  | none => true
  | some b => decide (b < mx)

/-- One generation of `generate_timetable` (lines 743-780): score the
current population (`fit` stands for `calculate_fitness`; a per-individual
exception maps to the worst score, which cannot occur in this total model),
take the maximum (crashing like Python's `max([])` on an empty population),
update the best-so-far on strict improvement, stop after 20 stagnant
generations, otherwise breed `new_population` (`breed` stands for the
tournament-selection / crossover / probabilistic-mutation loop of lines
772-780).  The `population` field is NOT updated: the source's
`population = new_population` is dedented outside the loop. -/
def gen_step (fit : Timetable → Int)
    (breed : List Timetable → List Int → List Timetable)
    (st : LoopState) : StepResult :=
  match (st.population.map fit).max? with
  | none => .crashed
  | some mx =>
    let st1 :=
      if improvedB st.best_fitness mx then
        { st with best_fitness := some mx,
                  best_timetable :=
                    argmaxFirst st.population (st.population.map fit) mx,
                  generations_without_improvement := 0 }
      else { st with generations_without_improvement :=
                st.generations_without_improvement + 1 }
    if 20 ≤ st1.generations_without_improvement then .stopped st1
    else .continues
      { st1 with new_population := breed st.population (st.population.map fit) }

/-- The `for generation in range(GENERATIONS)` loop with its early-stopping
`break` (lines 737-780). -/
def gen_loop (fit : Timetable → Int)
    (breed : List Timetable → List Int → List Timetable) :
    Nat → LoopState → Option LoopState
  | 0, st => some st
  | n + 1, st =>
    match gen_step fit breed st with
    | .crashed => none
    | .stopped st1 => some st1
    | .continues st1 => gen_loop fit breed n st1

/-- `generate_timetable(data)` (lines 714-803), with the Streamlit progress
UI omitted: initialize the population (an exception is caught at line 795
and surfaces as `None`), run the generational loop, and return
`best_timetable` (the dedented `population = new_population` at line 782
only overwrites a local that is never read again). -/
def generate_timetable (fit : Timetable → Int)
    (breed : List Timetable → List Int → List Timetable)
    (candidates : List Timetable) (d : DomainData) : Option Timetable :=
  match init_population candidates d with
  | .error _ => none
  | .ok population =>
    match gen_loop fit breed GENERATIONS
        { population := population, best_fitness := none,
          best_timetable := none, generations_without_improvement := 0,
          new_population := [] } with
    | none => none
    | some stF => stF.best_timetable

/-- Scenario-B shaped domain data: module M1 requires one session but the
lecturer list offers nobody qualified for it. -/
def data8 : DomainData :=
  { modules := [⟨"M1", "Mod1", 2, []⟩],
    lecturers := [],
    rooms := [⟨"R", 10, []⟩],
    students_per_group := [] }

/-- Pointwise update of the `slots` cell map at one (day, slot). -/
def updateSlots (f : Day → TimeSlot → List Entry) (day : Day) (slot : TimeSlot)
    (l : List Entry) : Day → TimeSlot → List Entry :=
  fun d2 s2 => if d2 = day ∧ s2 = slot then l else f d2 s2

/-- Pointwise update of a derived index (lecturer_slots / room_slots) at one
key and (day, slot). -/
def updateIndex (f : String → Day → TimeSlot → Option String) (key : String)
    (day : Day) (slot : TimeSlot) (v : Option String) :
    String → Day → TimeSlot → Option String :=
  fun k d2 s2 => if k = key ∧ d2 = day ∧ s2 = slot then v else f k d2 s2

/-- Clearing the selected cell in `mutate` (`src/timetable.py` lines
505-514): the cell's entry list becomes empty and the lecturer/room index
entries of every lecturer and room of the domain data are reset. -/
def clear_cell (t : Timetable) (d : DomainData) (day : Day) (slot : TimeSlot) :
    Timetable :=
  { slots := updateSlots t.slots day slot [],
    lecturer_slots := fun k d2 s2 =>
      if (d.lecturers.any fun l => l.id == k) ∧ d2 = day ∧ s2 = slot then none
      else t.lecturer_slots k d2 s2,
    room_slots := fun k d2 s2 =>
      if (d.rooms.any fun r => r.name == k) ∧ d2 = day ∧ s2 = slot then none
      else t.room_slots k d2 s2 }

/-- `total_students` of `mutate`'s room search (lines 608-618): the chosen
module's headcount plus the headcount of every other module already in the
cell. -/
def mutate_cell_load (t1 : Timetable) (d : DomainData) (day : Day)
    (slot : TimeSlot) (m : CourseModule) : Nat :=
  moduleHeadcount d m +
    ((t1.slots day slot).map fun e =>
      match findModule d e.module with
      | some tm => moduleHeadcount d tm
      | none => 0).sum

/-- The body of `mutate`'s room loop (lines 585-625): the room must be free
in the cell; a room WITH `allowed_programs` requires the module to have
target programs, all of them allowed; a room WITHOUT `allowed_programs` is
only usable by modules with no target programs (the source comment: "If
room has no program restrictions, it can only be used by modules with no
programs"); finally the cumulative headcount must fit the capacity. -/
def mutate_room_eligible (t1 : Timetable) (d : DomainData) (day : Day)
    (slot : TimeSlot) (m : CourseModule) (r : Room) : Bool :=
  if (t1.room_slots r.name day slot).isSome then false
  else
    let module_programs := m.target_groups.map Prod.fst
    let prog_ok : Bool :=
      if !r.allowed_programs.isEmpty then
        !module_programs.isEmpty &&
          module_programs.all fun p => r.allowed_programs.contains p
      else module_programs.isEmpty
    if !prog_ok then false
    else decide (mutate_cell_load t1 d day slot m ≤ r.capacity)

/-- `available_rooms` of `mutate` (room names passing the loop's checks). -/
def mutate_available_rooms (t1 : Timetable) (d : DomainData) (day : Day)
    (slot : TimeSlot) (m : CourseModule) : List String :=
  d.rooms.filterMap fun r =>
    if mutate_room_eligible t1 d day slot m r then some r.name else none

/-- The selection phase of `mutate` (`src/timetable.py` lines 516-630),
operating on the already-cleared timetable `t1`.  `iM`, `iL`, `iR` are the
random choice indices for module, lecturer and room; every early `return`
of the source is `none`.  The under-scheduled module scan of lines 522-532
counts exactly like check 6, hence reuses `moduleScheduledSessions`. -/
def mutate_pick (t1 : Timetable) (d : DomainData) (day : Day) (slot : TimeSlot)
    (iM iL iR : Nat) : Option (CourseModule × Lecturer × String) :=
  let available_modules := d.modules.filter fun m =>
    !(m.code == "") && decide (moduleScheduledSessions t1 m.code < m.hours / 2)
  match available_modules.get? (iM % available_modules.length) with
  | none => none
  | some m =>
    if 1 ≤ (TIME_SLOTS.filter fun s =>
        (t1.slots day s).any fun e => e.module == m.code).length then none
    else if (t1.slots day slot).any fun e => e.module == m.code then none
    else if m.target_groups.any fun g =>
        (t1.slots day slot).any fun e =>
          match findModule d e.module with
          | some tm => tm.target_groups.contains g
          | none => false then none
    else
      let available_lecturers := d.lecturers.filter fun l =>
        l.modules.contains m.code &&
        (t1.lecturer_slots l.id day slot).isNone &&
        decide ((TIME_SLOTS.filter fun s =>
          (t1.lecturer_slots l.id day s).isSome).length < 4)
      match available_lecturers.get? (iL % available_lecturers.length) with
      | none => none
      | some lec =>
        match (mutate_available_rooms t1 d day slot m).get?
            (iR % (mutate_available_rooms t1 d day slot m).length) with
        | none => none
        | some room_name => some (m, lec, room_name)

/-- `mutate(timetable, data)` (`src/timetable.py` lines 502-640): clear the
chosen cell, then place at most one under-scheduled module back into it
(lines 632-640); on any early return the cell stays cleared. -/
def mutate (t : Timetable) (d : DomainData) (day : Day) (slot : TimeSlot)
    (iM iL iR : Nat) : Timetable :=
  let t1 := clear_cell t d day slot
  match mutate_pick t1 d day slot iM iL iR with
  | none => t1
  | some (m, lec, room_name) =>
    { slots := updateSlots t1.slots day slot
        (t1.slots day slot ++ [⟨m.code, lec.name, room_name⟩]),
      lecturer_slots := updateIndex t1.lecturer_slots lec.id day slot
        (some m.code),
      room_slots := updateIndex t1.room_slots room_name day slot
        (some m.code) }

/-- Sum of a per-cell quantity over the whole 5-day x 4-slot grid. -/
def grid_sum (g : Day → TimeSlot → Nat) : Nat :=
  (DAYS.map fun day => (TIME_SLOTS.map fun slot => g day slot).sum).sum

/-- Total number of entries over all (day, slot) cells of a timetable. -/
def total_entries (t : Timetable) : Nat :=
  grid_sum fun day slot => (t.slots day slot).length

/-- Domain data for the C5 counterexample: one under-scheduled module with a
qualified lecturer and an admissible room. -/
def data5 : DomainData :=
  { modules := [⟨"M", "ModM", 2, [("CS", "1")]⟩],
    lecturers := [⟨"l1", "L", ["M"], 4⟩],
    rooms := [⟨"R", 100, ["CS"]⟩],
    students_per_group := [(("CS", "1"), 30)] }

/-- Domain data for C9: a room with EMPTY allowed_programs, and a module
that does have a target program. -/
def data9 : DomainData :=
  { modules := [⟨"M", "ModM", 2, [("CS", "1")]⟩],
    lecturers := [⟨"l1", "L", ["M"], 4⟩],
    rooms := [⟨"R0", 1000, []⟩],
    students_per_group := [(("CS", "1"), 30)] }

/-- `module_requirements` of `crossover` (`src/timetable.py` lines 456-460):
the dict comprehension code ↦ hours // 2, skipping empty codes. -/
def module_requirements (d : DomainData) : List (String × Nat) :=
  d.modules.filterMap fun m =>
    if m.code == "" then none else some (m.code, m.hours / 2)

/-- Python dict lookup over the comprehension's insertion list (a later
duplicate key overrides an earlier one). -/
def dict_get (l : List (String × Nat)) (k : String) : Option Nat :=
  l.foldl (fun acc p => if p.1 == k then some p.2 else acc) none

/-- `module_requirements[code]` as a partial lookup; `none` is Python's
KeyError. -/
def cross_req (d : DomainData) (code : String) : Option Nat :=
  dict_get (module_requirements d) code

/-- The child-under-construction of `crossover`: the child timetable plus
the `assigned_sessions` defaultdict. -/
structure CrossState where
  child : Timetable
  sessions : String → Nat

/-- `assigned_sessions[module_code] += 1`. -/
def bump (f : String → Nat) (k : String) : String → Nat :=
  fun x => if x = k then f x + 1 else f x

/-- Processing one copied entry in `crossover` (`src/timetable.py` lines
482-498): look up the module's requirement (KeyError ⇒ `none` aborts the
whole crossover), skip when the module reached its cap, is already in the
child cell, its lecturer is unknown or busy, or its room is busy; a room
name absent from `data['rooms']` is a KeyError on `child['room_slots']`.
An accepted entry is appended to the cell and both derived indices are
set. -/
def cross_entry (d : DomainData) (day : Day) (slot : TimeSlot)
    (st : CrossState) (e : Entry) : Option CrossState :=
  match cross_req d e.module with
  | none => none
  | some r =>
    if st.sessions e.module < r then
      if (st.child.slots day slot).any fun t2 => t2.module == e.module then
        some st
      else
        match d.lecturers.find? fun l => l.name == e.lecturer with
        | none => some st
        | some lec =>
          if (st.child.lecturer_slots lec.id day slot).isSome then some st
          else if !(d.rooms.any fun r2 => r2.name == e.room) then none
          else if (st.child.room_slots e.room day slot).isSome then some st
          else some
            { child :=
                { slots := updateSlots st.child.slots day slot
                    (st.child.slots day slot ++ [e]),
                  lecturer_slots := updateIndex st.child.lecturer_slots
                    lec.id day slot (some e.module),
                  room_slots := updateIndex st.child.room_slots e.room
                    day slot (some e.module) },
              sessions := bump st.sessions e.module }
    else some st

/-- Copying one cell of the chosen source parent (lines 472-498). -/
def cross_cell (d : DomainData) (source : Timetable) (day : Day)
    (slot : TimeSlot) (st : CrossState) : Option CrossState :=
  List.foldlM (cross_entry d day slot) st (source.slots day slot)

/-- One day of `crossover` (lines 466-498): `coin day = true` chooses
parent1 as the source (`random.random() < 0.5`), then all four cells of the
day are copied. -/
def cross_day (p1 p2 : Timetable) (d : DomainData) (coin : Day → Bool)
    (st : CrossState) (day : Day) : Option CrossState :=
  List.foldlM
    (fun st2 slot => cross_cell d (if coin day then p1 else p2) day slot st2)
    st TIME_SLOTS

/-- `crossover(parent1, parent2, data)` (`src/timetable.py` lines 445-500):
start from the empty child with cleared indices and fold over the days;
`none` models an uncaught KeyError. -/
def crossover (p1 p2 : Timetable) (d : DomainData) (coin : Day → Bool) :
    Option Timetable :=
  (List.foldlM (cross_day p1 p2 d coin)
    ⟨⟨fun _ _ => [], fun _ _ _ => none, fun _ _ _ => none⟩, fun _ => 0⟩
    DAYS).map CrossState.child

/-- Number of entries (not cells) carrying a module code, over the grid. -/
def entries_with_code (t : Timetable) (code : String) : Nat :=
  grid_sum fun day slot =>
    ((t.slots day slot).filter fun e => e.module == code).length

/-- The per-cell conflict-freedom of the amended C4: two entries of one cell
never share a lecturer, a room, or a module code. -/
def CellRel : Entry → Entry → Prop := fun a b =>
  a.lecturer ≠ b.lecturer ∧ a.room ≠ b.room ∧ a.module ≠ b.module

/-- Invariant carried through `crossover`'s folds: the child's entry count
per code equals the `assigned_sessions` counter, the counter respects the
requirements dict, every placed entry is registered in both derived
indices, and every cell is conflict-free. -/
def CrossInv (d : DomainData) (st : CrossState) : Prop :=
  (∀ code, entries_with_code st.child code = st.sessions code) ∧
  (∀ code r, cross_req d code = some r → st.sessions code ≤ r) ∧
  (∀ day slot,
    (∀ e ∈ st.child.slots day slot,
      (∃ lec, (d.lecturers.find? fun l => l.name == e.lecturer) = some lec ∧
        (st.child.lecturer_slots lec.id day slot).isSome = true) ∧
      (st.child.room_slots e.room day slot).isSome = true) ∧
    List.Pairwise CellRel (st.child.slots day slot))

/-- Domain data for the C4 counterexample: two distinct modules A and B
sharing the target group ("CS","1"), with distinct lecturers and rooms. -/
def dataX : DomainData :=
  { modules := [⟨"A", "MA", 2, [("CS", "1")]⟩, ⟨"B", "MB", 2, [("CS", "1")]⟩],
    lecturers := [⟨"1", "La", ["A"], 4⟩, ⟨"2", "Lb", ["B"], 4⟩],
    rooms := [⟨"R1", 100, []⟩, ⟨"R2", 100, []⟩],
    students_per_group := [(("CS", "1"), 30)] }

/-- A parent whose Monday 08:00 cell holds entries of both modules. -/
def p1x : Timetable :=
  { slots := fun day slot =>
      match day, slot with
      | .monday, .t0800 => [⟨"A", "La", "R1"⟩, ⟨"B", "Lb", "R2"⟩]
      | _, _ => [],
    lecturer_slots := fun _ _ _ => none,
    room_slots := fun _ _ _ => none }

/-- The child bred from `p1x` and the empty parent, always copying `p1x`. -/
def c4badchild : Timetable :=
  (crossover p1x goodT0 dataX (fun _ => true)).getD goodT0

/-- The target groups of an entry's module, empty when the module is
unknown (statement helper for the claim's target-group clause). -/
def entry_groups (d : DomainData) (e : Entry) : List (String × String) :=
  ((findModule d e.module).map CourseModule.target_groups).getD []

/-- Whether some two entries of a cell have modules sharing a target group
(statement helper for the claim's target-group clause). -/
def cell_has_shared_group (d : DomainData) : List Entry → Bool
  | [] => false
  | e :: rest =>
    ((entry_groups d e).any fun g =>
      rest.any fun e2 => (entry_groups d e2).contains g) ||
    cell_has_shared_group d rest

/-- The child of crossing two empty parents over `dataD`. -/
def c4okchild : Timetable :=
  (crossover goodT0 goodT0 dataD (fun _ => true)).getD goodT0

/-- Every day of the week is listed in DAYS. -/
theorem mem_DAYS (day : Day) : day ∈ DAYS := by
  cases day <;> decide

/-- Every period is listed in TIME_SLOTS. -/
theorem mem_TIME_SLOTS (slot : TimeSlot) : slot ∈ TIME_SLOTS := by
  cases slot <;> decide

/-- Splitting a successful validation into its six checks. -/
theorem validate_parts {t : Timetable} {d : DomainData}
    (h : validate_hard_constraints t d = true) :
    check_group_conflicts t d = true ∧
    check_lecturer_conflicts t = true ∧
    check_room_conflicts t = true ∧
    check_room_capacity t d = true ∧
    check_lecturer_qualifications t d = true ∧
    check_module_hours t d = true := by
  simpa [validate_hard_constraints, Bool.and_eq_true, and_assoc] using h

/-- C1: the claim states that every timetable accepted by
`validate_hard_constraints` respects room program restrictions.  The code
contradicts it: `validate_hard_constraints` has no allowed_programs check
(its six checks are group conflicts, lecturer conflicts, room conflicts,
capacity, qualification, module hours), so the Scenario-D timetable `ttD` —
module M targeting only ("SWE","1.1") placed in room R with
allowed_programs = ["CS"] — is accepted, even though the repository's own
`validate_timetable` reports a ROOM RESTRICTION violation for it. -/
theorem claim1_validator_accepts_forbidden_room :
    validate_hard_constraints ttD dataD = true ∧
    ttD.slots Day.monday TimeSlot.t0800 = [⟨"M", "L", "R"⟩] ∧
    findRoom dataD "R" = some ⟨"R", 100, ["CS"]⟩ ∧
    findModule dataD "M" = some ⟨"M", "ModM", 2, [("SWE", "1.1")]⟩ ∧
    ("SWE" ∈ (["CS"] : List String) → False) ∧
    validate_timetable_room_restriction ttD dataD = true := by
  refine ⟨by decide, by decide, by decide, by decide, by decide, by decide⟩

/-- Soundness of check 6, shared helper: a successful validation pins every
non-empty module code to `hours / 2` scheduled cells, at most one per day. -/
theorem module_hours_sound (t : Timetable) (d : DomainData)
    (h : validate_hard_constraints t d = true) :
    ∀ m ∈ d.modules, m.code ≠ "" →
      moduleScheduledSessions t m.code = m.hours / 2 ∧
      ∀ day : Day, moduleDailyCount t day m.code ≤ 1 := by
  intro m hm hcode
  have h6 : check_module_hours t d = true := (validate_parts h).2.2.2.2.2
  have hmAll := (List.all_eq_true.mp h6) m hm
  have hne : (m.code == "") = false := beq_eq_false_iff_ne.mpr hcode
  rw [if_neg (by simp [hne])] at hmAll
  have hparts : moduleScheduledSessions t m.code = m.hours / 2 ∧
      ∀ day ∈ DAYS, moduleDailyCount t day m.code ≤ 1 := by
    simpa [List.all_eq_true] using hmAll
  exact ⟨hparts.1, fun day => hparts.2 day (mem_DAYS day)⟩

/-- C2: `validate_hard_constraints` returns true only if every module with a
non-empty code occupies exactly `hours / 2` cells, no two of them on the
same day (check 6 of the validator). -/
theorem claim2_module_hours_of_validate (t : Timetable) (d : DomainData)
    (h : validate_hard_constraints t d = true) :
    ∀ m ∈ d.modules, m.code ≠ "" →
      moduleScheduledSessions t m.code = m.hours / 2 ∧
      ∀ day : Day, moduleDailyCount t day m.code ≤ 1 :=
  module_hours_sound t d h

/-- Witness for C2, at the concrete accepted timetable `ttD`: module M has
`hours = 2`, one scheduled cell, and at most one session on Monday. -/
theorem claim2_witness :
    validate_hard_constraints ttD dataD = true ∧
    moduleScheduledSessions ttD "M" = 1 ∧
    moduleDailyCount ttD Day.monday "M" ≤ 1 := by
  have h : validate_hard_constraints ttD dataD = true := by decide
  have hm : (⟨"M", "ModM", 2, [("SWE", "1.1")]⟩ : CourseModule) ∈
      dataD.modules := by decide
  have := claim2_module_hours_of_validate ttD dataD h _ hm (by decide)
  exact ⟨h, this.1, this.2 Day.monday⟩

/-- Soundness of the check-2 cell scan: a successful scan means pairwise
distinct lecturers, disjointness from the accumulated set, and daily slot
counts within FACULTY_DAILY_MAX_HOURS. -/
theorem scanLecturerConflicts_sound (t : Timetable) (day : Day) :
    ∀ (entries : List Entry) (sched : List String),
      scanLecturerConflicts t day sched entries = true →
      List.Pairwise (fun a b : Entry => a.lecturer ≠ b.lecturer) entries ∧
      (∀ e ∈ entries, e.lecturer ∉ sched) ∧
      (∀ e ∈ entries,
        lecturerDailySlotCount t day e.lecturer ≤ FACULTY_DAILY_MAX_HOURS) := by
  intro entries
  induction entries with
  | nil => exact fun sched _ => ⟨List.Pairwise.nil, by simp, by simp⟩
  | cons e rest ih =>
    intro sched h
    simp only [scanLecturerConflicts] at h
    obtain ⟨h1, h2, h3⟩ :
        e.lecturer ∉ sched ∧
        lecturerDailySlotCount t day e.lecturer ≤ FACULTY_DAILY_MAX_HOURS ∧
        scanLecturerConflicts t day (e.lecturer :: sched) rest = true := by
      simpa [Nat.not_lt] using h
    obtain ⟨hpw, hdisj, hcount⟩ := ih (e.lecturer :: sched) h3
    refine ⟨List.pairwise_cons.mpr ⟨?_, hpw⟩, ?_, ?_⟩
    · intro b hb heq
      exact hdisj b hb (heq ▸ List.mem_cons_self _ _)
    · intro f hf
      rcases List.mem_cons.mp hf with rfl | hfr
      · exact h1
      · exact fun hmem => hdisj f hfr (List.mem_cons_of_mem _ hmem)
    · intro f hf
      rcases List.mem_cons.mp hf with rfl | hfr
      · exact h2
      · exact hcount f hfr

/-- C6 (amended): an accepted timetable never schedules a lecturer twice in
one cell, and every scheduled lecturer's daily slot count stays within the
fixed constant FACULTY_DAILY_MAX_HOURS = 8 (with four slots per day this
bound is vacuous); the validator never consults the lecturer's own
`max_daily` field, which can therefore be exceeded. -/
theorem claim6_lecturer_checks_of_validate (t : Timetable) (d : DomainData)
    (h : validate_hard_constraints t d = true) :
    ∀ (day : Day) (slot : TimeSlot),
      List.Pairwise (fun a b : Entry => a.lecturer ≠ b.lecturer)
        (t.slots day slot) ∧
      ∀ e ∈ t.slots day slot,
        lecturerDailySlotCount t day e.lecturer ≤ FACULTY_DAILY_MAX_HOURS := by
  intro day slot
  have h2 : check_lecturer_conflicts t = true := (validate_parts h).2.1
  have hs := List.all_eq_true.mp
    (List.all_eq_true.mp h2 day (mem_DAYS day)) slot (mem_TIME_SLOTS slot)
  obtain ⟨hpw, _, hcount⟩ :=
    scanLecturerConflicts_sound t day (t.slots day slot) [] hs
  exact ⟨hpw, hcount⟩

/-- Witness for C6: the accepted timetable `ttD` keeps lecturer L within the
validator's daily bound. -/
theorem claim6_witness :
    validate_hard_constraints ttD dataD = true ∧
    lecturerDailySlotCount ttD Day.monday "L" ≤ FACULTY_DAILY_MAX_HOURS := by
  have h : validate_hard_constraints ttD dataD = true := by decide
  have hmem : (⟨"M", "L", "R"⟩ : Entry) ∈
      ttD.slots Day.monday TimeSlot.t0800 := by decide
  exact ⟨h, (claim6_lecturer_checks_of_validate ttD dataD h Day.monday
    TimeSlot.t0800).2 _ hmem⟩

/-- C6 counterexample: `tt6` passes `validate_hard_constraints` although
lecturer L appears in 3 slots on Monday, exceeding L's own max_daily = 2:
the per-lecturer cap of the claim is not enforced. -/
theorem claim6_counterexample :
    validate_hard_constraints tt6 data6 = true ∧
    data6.lecturers = [⟨"l1", "L", ["A", "B", "C"], 2⟩] ∧
    lecturerDailySlotCount tt6 Day.monday "L" = 3 ∧
    ¬ lecturerDailySlotCount tt6 Day.monday "L" ≤ 2 := by
  refine ⟨by decide, by decide, by decide, by decide⟩

/-- A cell scan of check 1 fails whenever some entry's module code is
unknown to the domain data. -/
theorem scanGroupConflicts_missing (d : DomainData) :
    ∀ (entries : List Entry) (sched : List (String × String)),
      (∃ e ∈ entries, findModule d e.module = none) →
      scanGroupConflicts d sched entries = false := by
  intro entries
  induction entries with
  | nil => rintro sched ⟨e, he, -⟩; simp at he
  | cons e rest ih =>
    rintro sched ⟨f, hf, hnone⟩
    simp only [scanGroupConflicts]
    rcases List.mem_cons.mp hf with rfl | hfr
    · rw [hnone]
    · cases hm : findModule d e.module with
      | none => rfl
      | some m =>
        show (match addGroups sched m.target_groups with
          | none => false
          | some sched2 => scanGroupConflicts d sched2 rest) = false
        cases hg : addGroups sched m.target_groups with
        | none => rfl
        | some sched2 => exact ih sched2 ⟨f, hfr, hnone⟩

/-- C10: `validate_hard_constraints` handles dangling references without
raising: a timetable whose entry names a module code, lecturer name, or
room name absent from the domain data is rejected with `false` (checks 1, 5
and 4 return False explicitly in those cases; as a total function the
embedding always returns a boolean). -/
theorem claim10_false_on_dangling_references (t : Timetable) (d : DomainData)
    (day : Day) (slot : TimeSlot) (e : Entry) (he : e ∈ t.slots day slot)
    (hmiss : findModule d e.module = none ∨ findLecturer d e.lecturer = none ∨
      findRoom d e.room = none) :
    validate_hard_constraints t d = false := by
  cases hv : validate_hard_constraints t d
  · rfl
  · exfalso
    obtain ⟨h1, -, -, h4, h5, -⟩ := validate_parts hv
    rcases hmiss with hm | hl | hr
    · have hs := List.all_eq_true.mp
        (List.all_eq_true.mp h1 day (mem_DAYS day)) slot (mem_TIME_SLOTS slot)
      have hf := scanGroupConflicts_missing d (t.slots day slot) []
        ⟨e, he, hm⟩
      rw [hs] at hf
      cases hf
    · have hs := List.all_eq_true.mp (List.all_eq_true.mp
        (List.all_eq_true.mp h5 day (mem_DAYS day)) slot
        (mem_TIME_SLOTS slot)) e he
      rw [entryLecturerQualified, hl] at hs
      cases hs
    · have hs := List.all_eq_true.mp (List.all_eq_true.mp
        (List.all_eq_true.mp h4 day (mem_DAYS day)) slot
        (mem_TIME_SLOTS slot)) e he
      rw [entryCapacityOk, hr] at hs
      cases hs

/-- Witness for C10: the dangling-reference timetable `ttX` is rejected. -/
theorem claim10_witness : validate_hard_constraints ttX data_empty = false :=
  claim10_false_on_dangling_references ttX data_empty Day.monday
    TimeSlot.t0800 ⟨"X", "Y", "Z"⟩ (by decide) (Or.inl (by decide))

/-- Zeta-reduced form of `init_population`. -/
theorem init_population_eq (cands : List Timetable) (d : DomainData) :
    init_population cands d =
      if (cands.filter fun t => validate_hard_constraints t d).isEmpty then
        Except.error "Failed to initialize any valid timetables"
      else Except.ok (cands.filter fun t => validate_hard_constraints t d) :=
  rfl

/-- C3 (amended): `initialize_population` returns exactly the generated
candidates that pass `validate_hard_constraints` — between 1 and
POPULATION_SIZE timetables, not necessarily POPULATION_SIZE of them — and
raises its (generic) error exactly when no candidate passes. -/
theorem claim3_population_is_validated_filter (cands : List Timetable)
    (d : DomainData) :
    ((∀ t ∈ cands, validate_hard_constraints t d = false) ↔
      init_population cands d =
        Except.error "Failed to initialize any valid timetables") ∧
    (∀ pop, init_population cands d = Except.ok pop →
      pop = cands.filter (fun t => validate_hard_constraints t d) ∧
      pop ≠ [] ∧ pop.length ≤ cands.length ∧
      ∀ t ∈ pop, validate_hard_constraints t d = true) := by
  constructor
  · constructor
    · intro hall
      have hnil : cands.filter (fun t => validate_hard_constraints t d) = [] :=
        List.filter_eq_nil_iff.mpr (fun a ha => by simp [hall a ha])
      simp [init_population, hnil]
    · intro h t ht
      cases hvt : validate_hard_constraints t d
      · rfl
      · exfalso
        have hmem : t ∈ cands.filter (fun t => validate_hard_constraints t d) :=
          List.mem_filter.mpr ⟨ht, hvt⟩
        have hne : cands.filter (fun t => validate_hard_constraints t d) ≠ [] :=
          List.ne_nil_of_mem hmem
        rw [init_population_eq,
          if_neg (fun hc => hne (List.isEmpty_eq_true.mp hc))] at h
        cases h
  · intro pop hok
    rw [init_population_eq] at hok
    split at hok
    · cases hok
    · next hcond =>
      cases hok
      refine ⟨rfl, ?_, List.length_filter_le _ _, ?_⟩
      · exact fun h => hcond (by simp [h])
      · exact fun t ht => (List.mem_filter.mp ht).2

/-- Evaluation of `initialize_population` on the C3 batch: the failing
candidate is discarded, leaving 199 of the 200 timetables. -/
theorem c3_init_eval :
    init_population c3cands data_empty =
      Except.ok (List.replicate 199 goodT0) := by
  have hbad : validate_hard_constraints ttX data_empty = false := by decide
  have hgood : validate_hard_constraints goodT0 data_empty = true := by decide
  have hfil : c3cands.filter (fun t => validate_hard_constraints t data_empty)
      = List.replicate 199 goodT0 := by
    show List.filter _ (ttX :: List.replicate 199 goodT0) = _
    rw [List.filter_cons, List.filter_replicate]
    simp only [hbad, hgood]
    rfl
  rw [init_population_eq, hfil]
  rfl

/-- C3 counterexample: from a batch of POPULATION_SIZE = 200 generated
candidates, `initialize_population` returns only 199 timetables (the ones
that validate), so it does not return a population of POPULATION_SIZE
timetables as claimed. -/
theorem claim3_counterexample :
    c3cands.length = POPULATION_SIZE ∧
    init_population c3cands data_empty =
      Except.ok (List.replicate 199 goodT0) ∧
    (List.replicate 199 goodT0).length ≠ POPULATION_SIZE := by
  refine ⟨?_, c3_init_eval, ?_⟩
  · show (ttX :: List.replicate 199 goodT0).length = POPULATION_SIZE
    rw [List.length_cons, List.length_replicate]
    decide
  · rw [List.length_replicate]
    decide

/-- Witness for C3 at the concrete batch `c3cands`: the returned population
is non-empty and no longer than the batch. -/
theorem claim3_witness :
    (List.replicate 199 goodT0 : List Timetable) ≠ [] ∧
    (List.replicate 199 goodT0).length ≤ c3cands.length := by
  have h := (claim3_population_is_validated_filter c3cands data_empty).2
    (List.replicate 199 goodT0) c3_init_eval
  exact ⟨h.2.1, h.2.2.1⟩

/-- If a module with required sessions has no qualified lecturer in the
domain data, no timetable at all passes `validate_hard_constraints`:
check 6 forces at least one cell to contain the module, and check 5 then
demands a qualified lecturer for that entry. -/
theorem validate_false_of_unqualified (t : Timetable) (d : DomainData)
    (m : CourseModule) (hm : m ∈ d.modules) (hcode : m.code ≠ "")
    (hs : m.hours / 2 ≠ 0)
    (hq : ∀ l ∈ d.lecturers, m.code ∉ l.modules) :
    validate_hard_constraints t d = false := by
  cases hv : validate_hard_constraints t d
  · rfl
  exfalso
  have hses : moduleScheduledSessions t m.code = m.hours / 2 :=
    (module_hours_sound t d hv m hm hcode).1
  have hpos : moduleScheduledSessions t m.code ≠ 0 := by rw [hses]; exact hs
  have hday : ∃ day ∈ DAYS, moduleDailyCount t day m.code ≠ 0 := by
    by_contra hno
    push_neg at hno
    refine hpos (List.sum_eq_zero fun x hx => ?_)
    obtain ⟨day, hdm, rfl⟩ := List.mem_map.mp hx
    exact hno day hdm
  obtain ⟨day, -, hdc⟩ := hday
  have hslot : ∃ slot ∈ TIME_SLOTS,
      cellHasModule (t.slots day slot) m.code = true := by
    by_contra hno
    push_neg at hno
    refine hdc ?_
    unfold moduleDailyCount
    rw [List.filter_eq_nil_iff.mpr fun s hsl => by simp [hno s hsl]]
    rfl
  obtain ⟨slot, -, hcell⟩ := hslot
  obtain ⟨e, he, hemod⟩ := List.any_eq_true.mp hcell
  have h5 := (validate_parts hv).2.2.2.2.1
  have hq5 := List.all_eq_true.mp (List.all_eq_true.mp
    (List.all_eq_true.mp h5 day (mem_DAYS day)) slot
    (mem_TIME_SLOTS slot)) e he
  unfold entryLecturerQualified at hq5
  cases hfl : findLecturer d e.lecturer with
  | none => rw [hfl] at hq5; cases hq5
  | some l =>
    rw [hfl] at hq5
    have hlm : l ∈ d.lecturers := List.mem_of_find?_eq_some hfl
    refine hq l hlm ?_
    have hmem : e.module ∈ l.modules := by simpa using hq5
    exact (eq_of_beq hemod) ▸ hmem

/-- C8: with module M1 unassignable (no qualified lecturer), every generated
candidate fails validation, so `initialize_population` always raises the
FIXED, generic message "Failed to initialize any valid timetables" — it
never names M1 — and `generate_timetable` swallows that exception and
returns `None`, so no schedule and no module-naming reason reach the
caller (the module-naming report at lines 805-810 of the source sits after
the `try/except/finally` returns and is unreachable). -/
theorem claim8_failure_is_generic_and_silent :
    (∀ t : Timetable, validate_hard_constraints t data8 = false) ∧
    (∀ cands : List Timetable, init_population cands data8 =
      Except.error "Failed to initialize any valid timetables") ∧
    (∀ (fit : Timetable → Int)
      (breed : List Timetable → List Int → List Timetable)
      (cands : List Timetable),
      generate_timetable fit breed cands data8 = none) := by
  have hall : ∀ t : Timetable, validate_hard_constraints t data8 = false :=
    fun t => validate_false_of_unqualified t data8 ⟨"M1", "Mod1", 2, []⟩
      (by decide) (by decide) (by decide)
      (fun l hl => by simp [data8] at hl)
  have herr : ∀ cands : List Timetable, init_population cands data8 =
      Except.error "Failed to initialize any valid timetables" := by
    intro cands
    rw [init_population_eq,
      List.filter_eq_nil_iff.mpr fun a _ => by simp [hall a]]
    rfl
  refine ⟨hall, herr, ?_⟩
  intro fit breed cands
  unfold generate_timetable
  rw [herr cands]

/-- The first-maximum individual belongs to the population. -/
theorem argmaxFirst_mem {pop : List Timetable} {scores : List Int} {mx : Int}
    {t : Timetable} (h : argmaxFirst pop scores mx = some t) : t ∈ pop := by
  unfold argmaxFirst at h
  obtain ⟨p, hfind, hpt⟩ := Option.map_eq_some'.mp h
  exact hpt ▸ (List.of_mem_zip (List.mem_of_find?_eq_some hfind)).1

/-- Evaluation of `gen_step` on an empty population: Python's `max([])`
raises, aborting the run. -/
theorem gen_step_none (fit : Timetable → Int)
    (breed : List Timetable → List Int → List Timetable)
    (p : List Timetable) (f : Option Int) (t : Option Timetable) (g : Nat)
    (np : List Timetable) (hmx : (p.map fit).max? = none) :
    gen_step fit breed ⟨p, f, t, g, np⟩ = .crashed := by
  unfold gen_step
  dsimp only
  rw [hmx]

/-- Evaluation of `gen_step` on an improving generation: best-so-far is
replaced, stagnation resets, and the loop continues (20 ≤ 0 is false). -/
theorem gen_step_improved (fit : Timetable → Int)
    (breed : List Timetable → List Int → List Timetable)
    (p : List Timetable) (f : Option Int) (t : Option Timetable) (g : Nat)
    (np : List Timetable) (mx : Int) (hmx : (p.map fit).max? = some mx)
    (himp : improvedB f mx = true) :
    gen_step fit breed ⟨p, f, t, g, np⟩ =
      .continues ⟨p, some mx, argmaxFirst p (p.map fit) mx, 0,
        breed p (p.map fit)⟩ := by
  unfold gen_step
  dsimp only
  rw [hmx]
  dsimp only
  rw [himp, if_pos rfl]
  rfl

/-- Evaluation of `gen_step` on a stagnant generation that reaches the
early-stopping threshold. -/
theorem gen_step_stagnant_stop (fit : Timetable → Int)
    (breed : List Timetable → List Int → List Timetable)
    (p : List Timetable) (f : Option Int) (t : Option Timetable) (g : Nat)
    (np : List Timetable) (mx : Int) (hmx : (p.map fit).max? = some mx)
    (himp : improvedB f mx = false) (h20 : 20 ≤ g + 1) :
    gen_step fit breed ⟨p, f, t, g, np⟩ = .stopped ⟨p, f, t, g + 1, np⟩ := by
  unfold gen_step
  dsimp only
  rw [hmx]
  dsimp only
  rw [himp, if_neg Bool.false_ne_true]
  rw [if_pos h20]

/-- Evaluation of `gen_step` on a stagnant generation below the threshold. -/
theorem gen_step_stagnant_go (fit : Timetable → Int)
    (breed : List Timetable → List Int → List Timetable)
    (p : List Timetable) (f : Option Int) (t : Option Timetable) (g : Nat)
    (np : List Timetable) (mx : Int) (hmx : (p.map fit).max? = some mx)
    (himp : improvedB f mx = false) (h20 : ¬ 20 ≤ g + 1) :
    gen_step fit breed ⟨p, f, t, g, np⟩ =
      .continues ⟨p, f, t, g + 1, breed p (p.map fit)⟩ := by
  unfold gen_step
  dsimp only
  rw [hmx]
  dsimp only
  rw [himp, if_neg Bool.false_ne_true]
  rw [if_neg h20]

/-- One generation behaves identically under two different breeding
functions, except for the (never re-read) `new_population` field. -/
theorem gen_step_sim (fit : Timetable → Int)
    (b1 b2 : List Timetable → List Int → List Timetable)
    (s1 s2 : LoopState) (hp : s1.population = s2.population)
    (hf : s1.best_fitness = s2.best_fitness)
    (hb : s1.best_timetable = s2.best_timetable)
    (hg : s1.generations_without_improvement =
      s2.generations_without_improvement) :
    (gen_step fit b1 s1 = .crashed ∧ gen_step fit b2 s2 = .crashed) ∨
    (∃ r1 r2, gen_step fit b1 s1 = .stopped r1 ∧
      gen_step fit b2 s2 = .stopped r2 ∧
      r1.population = r2.population ∧ r1.best_fitness = r2.best_fitness ∧
      r1.best_timetable = r2.best_timetable ∧
      r1.generations_without_improvement =
        r2.generations_without_improvement) ∨
    (∃ r1 r2, gen_step fit b1 s1 = .continues r1 ∧
      gen_step fit b2 s2 = .continues r2 ∧
      r1.population = r2.population ∧ r1.best_fitness = r2.best_fitness ∧
      r1.best_timetable = r2.best_timetable ∧
      r1.generations_without_improvement =
        r2.generations_without_improvement) := by
  obtain ⟨p1, f1, t1, g1, np1⟩ := s1
  obtain ⟨p2, f2, t2, g2, np2⟩ := s2
  dsimp at hp hf hb hg
  subst hp; subst hf; subst hb; subst hg
  cases hmx : (p1.map fit).max? with
  | none =>
    exact Or.inl ⟨gen_step_none fit b1 _ _ _ _ _ hmx,
      gen_step_none fit b2 _ _ _ _ _ hmx⟩
  | some mx =>
    cases himp : improvedB f1 mx with
    | true =>
      exact Or.inr (Or.inr ⟨_, _,
        gen_step_improved fit b1 _ _ _ _ _ _ hmx himp,
        gen_step_improved fit b2 _ _ _ _ _ _ hmx himp,
        rfl, rfl, rfl, rfl⟩)
    | false =>
      by_cases h20 : 20 ≤ g1 + 1
      · exact Or.inr (Or.inl ⟨_, _,
          gen_step_stagnant_stop fit b1 _ _ _ _ _ _ hmx himp h20,
          gen_step_stagnant_stop fit b2 _ _ _ _ _ _ hmx himp h20,
          rfl, rfl, rfl, rfl⟩)
      · exact Or.inr (Or.inr ⟨_, _,
          gen_step_stagnant_go fit b1 _ _ _ _ _ _ hmx himp h20,
          gen_step_stagnant_go fit b2 _ _ _ _ _ _ hmx himp h20,
          rfl, rfl, rfl, rfl⟩)

/-- The generational loop yields the same `best_timetable` under any two
breeding functions: since `population` is never replaced inside the loop,
the bred children are never evaluated. -/
theorem gen_loop_breed_independent (fit : Timetable → Int)
    (b1 b2 : List Timetable → List Int → List Timetable) :
    ∀ (n : Nat) (s1 s2 : LoopState),
      s1.population = s2.population →
      s1.best_fitness = s2.best_fitness →
      s1.best_timetable = s2.best_timetable →
      s1.generations_without_improvement =
        s2.generations_without_improvement →
      (gen_loop fit b1 n s1 = none ∧ gen_loop fit b2 n s2 = none) ∨
      (∃ r1 r2, gen_loop fit b1 n s1 = some r1 ∧
        gen_loop fit b2 n s2 = some r2 ∧
        r1.best_timetable = r2.best_timetable) := by
  intro n
  induction n with
  | zero =>
    intro s1 s2 _ _ hb _
    exact Or.inr ⟨s1, s2, rfl, rfl, hb⟩
  | succ n ih =>
    intro s1 s2 hp hf hb hg
    rcases gen_step_sim fit b1 b2 s1 s2 hp hf hb hg with
      ⟨h1, h2⟩ | ⟨r1, r2, h1, h2, _, _, hbt, _⟩ |
      ⟨r1, r2, h1, h2, hrp, hrf, hrb, hrg⟩
    · simp [gen_loop, h1, h2]
    · simp only [gen_loop, h1, h2]
      exact Or.inr ⟨r1, r2, rfl, rfl, hbt⟩
    · simp only [gen_loop, h1, h2]
      exact ih r1 r2 hrp hrf hrb hrg

/-- A generation step keeps `population` unchanged, and any `best_timetable`
it produces is either drawn from the population or inherited. -/
theorem gen_step_tracks (fit : Timetable → Int)
    (breed : List Timetable → List Int → List Timetable)
    (st r : LoopState)
    (h : gen_step fit breed st = .stopped r ∨
      gen_step fit breed st = .continues r) :
    r.population = st.population ∧
    ∀ t, r.best_timetable = some t →
      t ∈ st.population ∨ st.best_timetable = some t := by
  obtain ⟨p, f, t0, g, np⟩ := st
  cases hmx : (p.map fit).max? with
  | none =>
    rw [gen_step_none fit breed _ _ _ _ _ hmx] at h
    rcases h with h | h <;> cases h
  | some mx =>
    cases himp : improvedB f mx with
    | true =>
      rw [gen_step_improved fit breed _ _ _ _ _ _ hmx himp] at h
      rcases h with h | h
      · cases h
      · cases h
        exact ⟨rfl, fun t ht => Or.inl (argmaxFirst_mem ht)⟩
    | false =>
      by_cases h20 : 20 ≤ g + 1
      · rw [gen_step_stagnant_stop fit breed _ _ _ _ _ _ hmx himp h20] at h
        rcases h with h | h
        · cases h
          exact ⟨rfl, fun t ht => Or.inr ht⟩
        · cases h
      · rw [gen_step_stagnant_go fit breed _ _ _ _ _ _ hmx himp h20] at h
        rcases h with h | h
        · cases h
        · cases h
          exact ⟨rfl, fun t ht => Or.inr ht⟩

/-- Through the whole loop, any returned `best_timetable` is a member of the
initial population. -/
theorem gen_loop_tracks (fit : Timetable → Int)
    (breed : List Timetable → List Int → List Timetable) :
    ∀ (n : Nat) (st r : LoopState), gen_loop fit breed n st = some r →
      (∀ t, st.best_timetable = some t → t ∈ st.population) →
      ∀ t, r.best_timetable = some t → t ∈ st.population := by
  intro n
  induction n with
  | zero =>
    intro st r h hinv
    cases h
    exact hinv
  | succ n ih =>
    intro st r h hinv
    rw [gen_loop] at h
    cases hstep : gen_step fit breed st with
    | crashed => rw [hstep] at h; cases h
    | stopped st1 =>
      rw [hstep] at h
      cases h
      have htr := gen_step_tracks fit breed st r (Or.inl hstep)
      intro t ht
      rcases htr.2 t ht with hmem | hbest
      · exact hmem
      · exact hinv t hbest
    | continues st1 =>
      rw [hstep] at h
      have htr := gen_step_tracks fit breed st st1 (Or.inr hstep)
      have hinv1 : ∀ t, st1.best_timetable = some t → t ∈ st1.population := by
        intro t ht
        rw [htr.1]
        rcases htr.2 t ht with hmem | hbest
        · exact hmem
        · exact hinv t hbest
      intro t ht
      have := ih st1 r h hinv1 t ht
      rwa [htr.1] at this

/-- C7: because the source's `population = new_population` (timetable.py
line 782) is indented outside the `for generation` loop, the bred children
are never evaluated or selected from: `generate_timetable` returns exactly
the same result under ANY two breeding functions, and whatever timetable it
returns is a member of the initial validated population, not of any bred
generation. -/
theorem claim7_bred_population_never_evaluated (fit : Timetable → Int)
    (b1 b2 : List Timetable → List Int → List Timetable)
    (cands : List Timetable) (d : DomainData) :
    generate_timetable fit b1 cands d = generate_timetable fit b2 cands d ∧
    ∀ t, generate_timetable fit b1 cands d = some t →
      t ∈ cands.filter fun u => validate_hard_constraints u d := by
  unfold generate_timetable
  cases hinit : init_population cands d with
  | error msg => exact ⟨rfl, fun t ht => by cases ht⟩
  | ok pop =>
    have hpop : pop = cands.filter fun u => validate_hard_constraints u d := by
      rw [init_population_eq] at hinit
      split at hinit
      · cases hinit
      · cases hinit; rfl
    dsimp only
    constructor
    · rcases gen_loop_breed_independent fit b1 b2 GENERATIONS
        ⟨pop, none, none, 0, []⟩ ⟨pop, none, none, 0, []⟩ rfl rfl rfl rfl with
        ⟨h1, h2⟩ | ⟨r1, r2, h1, h2, hbt⟩
      · rw [h1, h2]
      · rw [h1, h2]
        exact hbt
    · intro t ht
      cases hgl : gen_loop fit b1 GENERATIONS ⟨pop, none, none, 0, []⟩ with
      | none => rw [hgl] at ht; cases ht
      | some r =>
        rw [hgl] at ht
        have := gen_loop_tracks fit b1 GENERATIONS ⟨pop, none, none, 0, []⟩ r
          hgl (fun t h => by cases h) t ht
        exact hpop ▸ this

/-- Witness for C7: a concrete run with one validated candidate returns the
same timetable whether breeding produces nothing or echoes the population,
and that timetable comes from the initial population. -/
theorem claim7_witness :
    generate_timetable (fun _ => (0 : Int)) (fun _ _ => []) [goodT0]
        data_empty =
      generate_timetable (fun _ => (0 : Int)) (fun p _ => p) [goodT0]
        data_empty ∧
    goodT0 ∈ [goodT0].filter fun u =>
      validate_hard_constraints u data_empty := by
  have h := claim7_bred_population_never_evaluated (fun _ => (0 : Int))
    (fun _ _ => []) (fun p _ => p) [goodT0] data_empty
  exact ⟨h.1, h.2 goodT0 (by rfl)⟩

theorem updateSlots_same (f : Day → TimeSlot → List Entry) (day : Day)
    (slot : TimeSlot) (l : List Entry) : updateSlots f day slot l day slot = l := by
  simp [updateSlots]

/-- Updating one cell of the grid shifts the total by the difference at that
cell. -/
theorem grid_sum_update (g : Day → TimeSlot → Nat) (day : Day)
    (slot : TimeSlot) (v : Nat) :
    grid_sum (fun d2 s2 => if d2 = day ∧ s2 = slot then v else g d2 s2) +
      g day slot = grid_sum g + v := by
  cases day <;> cases slot <;> simp [grid_sum, DAYS, TIME_SLOTS] <;> omega

/-- Total-entry bookkeeping for a timetable whose cell map is a one-cell
update of another's. -/
theorem total_entries_of_slots_eq (t2 t : Timetable) (day : Day)
    (slot : TimeSlot) (l : List Entry)
    (h : t2.slots = updateSlots t.slots day slot l) :
    total_entries t2 + (t.slots day slot).length = total_entries t + l.length := by
  unfold total_entries
  rw [h]
  have hfun : (fun d2 s2 => (updateSlots t.slots day slot l d2 s2).length) =
      (fun d2 s2 => if d2 = day ∧ s2 = slot then l.length
        else (t.slots d2 s2).length) := by
    funext d2 s2
    by_cases hc : d2 = day ∧ s2 = slot
    · simp [updateSlots, hc]
    · simp [updateSlots, hc]
  rw [hfun]
  exact grid_sum_update (fun d2 s2 => (t.slots d2 s2).length) day slot l.length

/-- C5 (amended): after `mutate`, the mutated cell holds at most one entry;
the total entry count can grow by at most one, and it can only grow at all
when the chosen cell was empty before the call (a non-empty cell is cleared
first, so the total then never increases). -/
theorem claim5_mutate_bounds (t : Timetable) (d : DomainData) (day : Day)
    (slot : TimeSlot) (iM iL iR : Nat) :
    ((mutate t d day slot iM iL iR).slots day slot).length ≤ 1 ∧
    total_entries (mutate t d day slot iM iL iR) ≤ total_entries t + 1 ∧
    (t.slots day slot ≠ [] →
      total_entries (mutate t d day slot iM iL iR) ≤ total_entries t) := by
  have h1 : total_entries (clear_cell t d day slot) +
      (t.slots day slot).length = total_entries t + ([] : List Entry).length :=
    total_entries_of_slots_eq (clear_cell t d day slot) t day slot [] rfl
  have hc : (clear_cell t d day slot).slots day slot = [] :=
    updateSlots_same t.slots day slot []
  have hlen : t.slots day slot ≠ [] → 1 ≤ (t.slots day slot).length := by
    intro hne
    cases hsl : t.slots day slot with
    | nil => exact absurd hsl hne
    | cons a l => simp
  unfold mutate
  cases hpick : mutate_pick (clear_cell t d day slot) d day slot iM iL iR with
  | none =>
    dsimp only
    rw [hpick]
    dsimp only
    refine ⟨?_, ?_, ?_⟩
    · rw [hc]
      decide
    · simp at h1; omega
    · intro hne
      have := hlen hne
      simp at h1; omega
  | some triple =>
    obtain ⟨m, lec, room_name⟩ := triple
    dsimp only
    rw [hpick]
    dsimp only
    rw [hc]
    simp only [List.nil_append]
    have h2 :=
      total_entries_of_slots_eq
        (⟨updateSlots (clear_cell t d day slot).slots day slot
            [⟨m.code, lec.name, room_name⟩],
          updateIndex (clear_cell t d day slot).lecturer_slots lec.id day slot
            (some m.code),
          updateIndex (clear_cell t d day slot).room_slots room_name day slot
            (some m.code)⟩ : Timetable)
        (clear_cell t d day slot) day slot [⟨m.code, lec.name, room_name⟩] rfl
    rw [hc] at h2
    simp at h1 h2
    refine ⟨?_, ?_, ?_⟩
    · rw [updateSlots_same]
      simp
    · omega
    · intro hne
      have := hlen hne
      omega

/-- C5 counterexample: mutating an empty timetable at an empty cell places
one session, so the total number of scheduled entries strictly increases
from 0 to 1 — `mutate` is not merely maintaining-or-reducing. -/
theorem claim5_counterexample :
    total_entries goodT0 = 0 ∧
    total_entries (mutate goodT0 data5 Day.monday TimeSlot.t0800 0 0 0) = 1 := by
  exact ⟨by decide, by decide⟩

/-- Witness for C5 at the non-empty cell of `ttD`: there the total never
increases. -/
theorem claim5_witness :
    ttD.slots Day.monday TimeSlot.t0800 ≠ [] ∧
    total_entries (mutate ttD dataD Day.monday TimeSlot.t0800 0 0 0) ≤
      total_entries ttD := by
  have h := claim5_mutate_bounds ttD dataD Day.monday TimeSlot.t0800 0 0 0
  exact ⟨by decide, h.2.2 (by decide)⟩

/-- C9 counterexample: room R0 is free in the cell, has ample capacity and
an empty allowed_programs list, yet `mutate`'s room search rejects it for a
module with target program CS — empty allowed_programs does NOT mean
unrestricted in `mutate`; such rooms only accept modules with no target
programs. -/
theorem claim9_counterexample :
    goodT0.room_slots "R0" Day.monday TimeSlot.t0800 = none ∧
    mutate_cell_load goodT0 data9 Day.monday TimeSlot.t0800
      ⟨"M", "ModM", 2, [("CS", "1")]⟩ ≤ 1000 ∧
    (⟨"R0", 1000, []⟩ : Room) ∈ data9.rooms ∧
    (⟨"R0", 1000, []⟩ : Room).allowed_programs = [] ∧
    mutate_room_eligible goodT0 data9 Day.monday TimeSlot.t0800
      ⟨"M", "ModM", 2, [("CS", "1")]⟩ ⟨"R0", 1000, []⟩ = false ∧
    mutate_available_rooms goodT0 data9 Day.monday TimeSlot.t0800
      ⟨"M", "ModM", 2, [("CS", "1")]⟩ = [] := by
  refine ⟨rfl, by decide, by decide, rfl, by decide, by decide⟩

/-- C9 (amended): in `mutate`'s room search, a free room with an empty
allowed_programs list is eligible exactly for modules with NO target
programs (subject to the capacity check); a module with any target program
is rejected by such a room. -/
theorem claim9_empty_allowed_only_programless (t1 : Timetable)
    (d : DomainData) (day : Day) (slot : TimeSlot) (m : CourseModule)
    (r : Room) (hfree : t1.room_slots r.name day slot = none)
    (hempty : r.allowed_programs = []) :
    mutate_room_eligible t1 d day slot m r =
      (m.target_groups.isEmpty &&
        decide (mutate_cell_load t1 d day slot m ≤ r.capacity)) := by
  cases htg : m.target_groups with
  | nil => simp [mutate_room_eligible, hfree, hempty, htg]
  | cons g gs => simp [mutate_room_eligible, hfree, hempty, htg]

/-- Witness for C9: a module without target programs reduces the
eligibility of the empty-allowed room R0 to its capacity check. -/
theorem claim9_witness :
    goodT0.room_slots "R0" Day.monday TimeSlot.t0800 = none ∧
    mutate_room_eligible goodT0 data9 Day.monday TimeSlot.t0800
      ⟨"N", "ModN", 2, []⟩ ⟨"R0", 1000, []⟩ =
      ((⟨"N", "ModN", 2, []⟩ : CourseModule).target_groups.isEmpty &&
        decide (mutate_cell_load goodT0 data9 Day.monday TimeSlot.t0800
          ⟨"N", "ModN", 2, []⟩ ≤ (⟨"R0", 1000, []⟩ : Room).capacity)) := by
  exact ⟨rfl, claim9_empty_allowed_only_programless goodT0 data9 Day.monday
    TimeSlot.t0800 ⟨"N", "ModN", 2, []⟩ ⟨"R0", 1000, []⟩ rfl rfl⟩

/-- Invariant preservation through an `Option`-valued left fold. -/
theorem foldlM_option_inv {α β : Type} (f : β → α → Option β)
    (P : β → Prop) :
    ∀ (l : List α), (∀ b a, a ∈ l → P b → ∀ b2, f b a = some b2 → P b2) →
      ∀ b b2, List.foldlM f b l = some b2 → P b → P b2 := by
  intro l
  induction l with
  | nil =>
    intro _ b b2 h hp
    cases h
    exact hp
  | cons a l ih =>
    intro hf b b2 h hp
    rw [List.foldlM_cons] at h
    cases hfa : f b a with
    | none => rw [hfa] at h; cases h
    | some b1 =>
      rw [hfa] at h
      exact ih (fun b a2 ha2 => hf b a2 (List.mem_cons_of_mem a ha2)) b1 b2 h
        (hf b a (List.mem_cons_self a l) hp b1 hfa)

theorem updateIndex_same (f : String → Day → TimeSlot → Option String)
    (key : String) (day : Day) (slot : TimeSlot) (v : Option String) :
    updateIndex f key day slot v key day slot = v := by
  simp [updateIndex]

/-- Setting one index entry to a `some` value never turns an occupied entry
into a free one. -/
theorem updateIndex_isSome_mono (f : String → Day → TimeSlot → Option String)
    (key : String) (day : Day) (slot : TimeSlot) (c : String) (k : String)
    (d2 : Day) (s2 : TimeSlot)
    (h : (f k d2 s2).isSome = true) :
    ((updateIndex f key day slot (some c)) k d2 s2).isSome = true := by
  unfold updateIndex
  split
  · rfl
  · exact h

/-- Appending one entry to a cell adds exactly one to the count of its
module code and nothing to other codes. -/
theorem entries_with_code_append (t2 t : Timetable) (day : Day)
    (slot : TimeSlot) (e : Entry)
    (h : t2.slots = updateSlots t.slots day slot (t.slots day slot ++ [e]))
    (code : String) :
    entries_with_code t2 code =
      entries_with_code t code + (if e.module == code then 1 else 0) := by
  unfold entries_with_code
  rw [h]
  have hfun : (fun d2 s2 =>
      ((updateSlots t.slots day slot (t.slots day slot ++ [e]) d2 s2).filter
        fun x => x.module == code).length) =
      (fun d2 s2 => if d2 = day ∧ s2 = slot then
        (((t.slots day slot ++ [e]).filter fun x => x.module == code).length)
        else ((t.slots d2 s2).filter fun x => x.module == code).length) := by
    funext d2 s2
    by_cases hc : d2 = day ∧ s2 = slot
    · simp only [updateSlots, if_pos hc]
    · simp only [updateSlots, if_neg hc]
  rw [hfun]
  have hgs := grid_sum_update
    (fun d2 s2 => ((t.slots d2 s2).filter fun x => x.module == code).length)
    day slot ((t.slots day slot ++ [e]).filter fun x => x.module == code).length
  have happ : ((t.slots day slot ++ [e]).filter
      fun x => x.module == code).length =
      ((t.slots day slot).filter fun x => x.module == code).length +
        (if e.module == code then 1 else 0) := by
    rw [List.filter_append]
    cases hpe : (e.module == code) <;> simp [List.filter, hpe]
  omega

/-- In every cell, at most as many cells contain a code as there are entries
carrying it: the cells-count is bounded by the entries-count. -/
theorem filterlen_le_sum (t : Timetable) (day : Day) (code : String) :
    ∀ sl : List TimeSlot,
      (sl.filter fun s => cellHasModule (t.slots day s) code).length ≤
      (sl.map fun s =>
        ((t.slots day s).filter fun e => e.module == code).length).sum := by
  intro sl
  induction sl with
  | nil => simp
  | cons s rest ih =>
    rw [List.filter_cons, List.map_cons, List.sum_cons]
    by_cases hc : cellHasModule (t.slots day s) code = true
    · rw [if_pos (by simp [hc])]
      have h1 : 1 ≤ ((t.slots day s).filter fun e => e.module == code).length := by
        obtain ⟨e, he, hme⟩ := List.any_eq_true.mp hc
        have hmem : e ∈ (t.slots day s).filter fun e => e.module == code :=
          List.mem_filter.mpr ⟨he, hme⟩
        have := List.ne_nil_of_mem hmem
        cases hl : (t.slots day s).filter fun e => e.module == code with
        | nil => exact absurd hl this
        | cons x xs => simp
      rw [List.length_cons]
      omega
    · rw [if_neg (by simp [hc])]
      exact le_trans ih (Nat.le_add_left _ _)

/-- The number of cells containing a module is at most the number of entries
carrying it. -/
theorem sessions_le_entries (t : Timetable) (code : String) :
    moduleScheduledSessions t code ≤ entries_with_code t code := by
  unfold moduleScheduledSessions entries_with_code grid_sum moduleDailyCount
  exact List.sum_le_sum fun day _ => filterlen_le_sum t day code TIME_SLOTS

/-- `CrossInv` is preserved by processing one entry. -/
theorem cross_entry_inv (d : DomainData) (day : Day) (slot : TimeSlot)
    (st : CrossState) (e : Entry) (st2 : CrossState)
    (h : cross_entry d day slot st e = some st2) (hinv : CrossInv d st) :
    CrossInv d st2 := by
  unfold cross_entry at h
  split at h
  · cases h
  next r hreq =>
    by_cases hlt : st.sessions e.module < r
    · rw [if_pos hlt] at h
      by_cases hdup : ((st.child.slots day slot).any fun t2 =>
          t2.module == e.module) = true
      · rw [if_pos hdup] at h
        cases h
        exact hinv
      · rw [if_neg hdup] at h
        split at h
        · cases h; exact hinv
        next lec hfl =>
          by_cases hls : (st.child.lecturer_slots lec.id day slot).isSome = true
          · rw [if_pos hls] at h; cases h; exact hinv
          · rw [if_neg hls] at h
            by_cases hrm : (!(d.rooms.any fun r2 => r2.name == e.room)) = true
            · rw [if_pos hrm] at h; cases h
            · rw [if_neg hrm] at h
              by_cases hrs : (st.child.room_slots e.room day slot).isSome = true
              · rw [if_pos hrs] at h; cases h; exact hinv
              · rw [if_neg hrs] at h
                cases h
                refine ⟨?_, ?_, ?_⟩
                · intro code
                  have hE := entries_with_code_append
                    ⟨updateSlots st.child.slots day slot
                        (st.child.slots day slot ++ [e]),
                      updateIndex st.child.lecturer_slots lec.id day slot
                        (some e.module),
                      updateIndex st.child.room_slots e.room day slot
                        (some e.module)⟩
                    st.child day slot e rfl code
                  dsimp only
                  rw [hE, hinv.1 code]
                  unfold bump
                  by_cases hc : code = e.module
                  · subst hc
                    simp
                  · have h1 : (e.module == code) = false :=
                      beq_eq_false_iff_ne.mpr fun h2 => hc h2.symm
                    simp [h1, hc]
                · intro code r2 hr2
                  dsimp only
                  unfold bump
                  by_cases hc : code = e.module
                  · subst hc
                    rw [hreq] at hr2
                    injection hr2 with hr2
                    subst hr2
                    simp
                    omega
                  · simp only [if_neg hc]
                    exact hinv.2.1 code r2 hr2
                · intro day2 slot2
                  dsimp only
                  by_cases hds : day2 = day ∧ slot2 = slot
                  · obtain ⟨rfl, rfl⟩ := hds
                    rw [updateSlots_same]
                    constructor
                    · intro e2 he2
                      rcases List.mem_append.mp he2 with h2 | h2
                      · obtain ⟨⟨lec2, hf2, hs2⟩, hr2⟩ :=
                          (hinv.2.2 day2 slot2).1 e2 h2
                        exact ⟨⟨lec2, hf2,
                          updateIndex_isSome_mono _ _ _ _ _ _ _ _ hs2⟩,
                          updateIndex_isSome_mono _ _ _ _ _ _ _ _ hr2⟩
                      · have he2e : e2 = e := List.mem_singleton.mp h2
                        subst he2e
                        refine ⟨⟨lec, hfl, ?_⟩, ?_⟩
                        · rw [updateIndex_same]; rfl
                        · rw [updateIndex_same]; rfl
                    · refine List.pairwise_append.mpr
                        ⟨(hinv.2.2 day2 slot2).2, List.pairwise_singleton _ _, ?_⟩
                      intro a ha b hb
                      have hbe : b = e := List.mem_singleton.mp hb
                      subst hbe
                      obtain ⟨⟨lecA, hfA, hsA⟩, hrA⟩ :=
                        (hinv.2.2 day2 slot2).1 a ha
                      refine ⟨?_, ?_, ?_⟩
                      · intro heq
                        rw [heq, hfl] at hfA
                        injection hfA with hfA
                        rw [← hfA] at hsA
                        exact hls hsA
                      · intro heq
                        rw [heq] at hrA
                        exact hrs hrA
                      · intro heq
                        exact hdup
                          (List.any_eq_true.mpr ⟨a, ha, beq_iff_eq.mpr heq⟩)
                  · have hcell : updateSlots st.child.slots day slot
                        (st.child.slots day slot ++ [e]) day2 slot2 =
                        st.child.slots day2 slot2 := by
                      unfold updateSlots
                      rw [if_neg hds]
                    rw [hcell]
                    constructor
                    · intro e2 he2
                      obtain ⟨⟨lec2, hf2, hs2⟩, hr2⟩ :=
                        (hinv.2.2 day2 slot2).1 e2 he2
                      exact ⟨⟨lec2, hf2,
                        updateIndex_isSome_mono _ _ _ _ _ _ _ _ hs2⟩,
                        updateIndex_isSome_mono _ _ _ _ _ _ _ _ hr2⟩
                    · exact (hinv.2.2 day2 slot2).2
    · rw [if_neg hlt] at h
      cases h
      exact hinv

/-- `CrossInv` is preserved by copying one cell. -/
theorem cross_cell_inv (d : DomainData) (source : Timetable) (day : Day)
    (slot : TimeSlot) (st st2 : CrossState)
    (h : cross_cell d source day slot st = some st2) (hinv : CrossInv d st) :
    CrossInv d st2 :=
  foldlM_option_inv (cross_entry d day slot) (CrossInv d)
    (source.slots day slot)
    (fun b a _ hb b2 hf => cross_entry_inv d day slot b a b2 hf hb)
    st st2 h hinv

/-- `CrossInv` is preserved by copying one day. -/
theorem cross_day_inv (p1 p2 : Timetable) (d : DomainData)
    (coin : Day → Bool) (st st2 : CrossState) (day : Day)
    (h : cross_day p1 p2 d coin st day = some st2) (hinv : CrossInv d st) :
    CrossInv d st2 :=
  foldlM_option_inv
    (fun st3 slot => cross_cell d (if coin day then p1 else p2) day slot st3)
    (CrossInv d) TIME_SLOTS
    (fun b a _ hb b2 hf =>
      cross_cell_inv d (if coin day then p1 else p2) day a b b2 hf hb)
    st st2 h hinv

/-- The initial crossover state satisfies the invariant. -/
theorem cross_init_inv (d : DomainData) :
    CrossInv d ⟨⟨fun _ _ => [], fun _ _ _ => none, fun _ _ _ => none⟩,
      fun _ => 0⟩ := by
  exact ⟨fun code => rfl, fun code r _ => Nat.zero_le r, fun day slot =>
    ⟨fun e he => absurd he (List.not_mem_nil e), List.Pairwise.nil⟩⟩

/-- A successful crossover yields a state satisfying the invariant whose
child is the returned timetable. -/
theorem crossover_inv (p1 p2 : Timetable) (d : DomainData)
    (coin : Day → Bool) (child : Timetable)
    (h : crossover p1 p2 d coin = some child) :
    ∃ st : CrossState, st.child = child ∧ CrossInv d st := by
  unfold crossover at h
  obtain ⟨st, hst, hchild⟩ := Option.map_eq_some'.mp h
  refine ⟨st, hchild, ?_⟩
  exact foldlM_option_inv (cross_day p1 p2 d coin) (CrossInv d) DAYS
    (fun b a _ hb b2 hf => cross_day_inv p1 p2 d coin b b2 a hf hb)
    _ st hst (cross_init_inv d)

/-- C4 (amended): a child produced by `crossover` schedules every module in
at most its required number of cells (the `module_requirements` dict entry,
`hours // 2`), and within every cell no two entries share a lecturer, share
a room, or carry the same module code.  Crossover does NOT prevent two
entries of DIFFERENT modules sharing a target group in one cell: its cell
check (line 487) only compares module codes, so the claim's target-group
conjunct fails (see the counterexample). -/
theorem claim4_crossover_caps_and_cell_conflicts (p1 p2 : Timetable)
    (d : DomainData) (coin : Day → Bool) (child : Timetable)
    (h : crossover p1 p2 d coin = some child) :
    (∀ code r, cross_req d code = some r →
      moduleScheduledSessions child code ≤ r) ∧
    (∀ day slot, List.Pairwise CellRel (child.slots day slot)) := by
  obtain ⟨st, hchild, hinv⟩ := crossover_inv p1 p2 d coin child h
  subst hchild
  constructor
  · intro code r hreq
    calc moduleScheduledSessions st.child code
        ≤ entries_with_code st.child code := sessions_le_entries st.child code
      _ = st.sessions code := hinv.1 code
      _ ≤ r := hinv.2.1 code r hreq
  · intro day slot
    exact (hinv.2.2 day slot).2

/-- C4 counterexample: crossover copies both entries of the parent cell into
the child — their modules A and B share the target group ("CS","1"), so the
claim's "no two entries' modules share a target group" fails on the
produced child. -/
theorem claim4_counterexample :
    crossover p1x goodT0 dataX (fun _ => true) = some c4badchild ∧
    c4badchild.slots Day.monday TimeSlot.t0800 =
      [⟨"A", "La", "R1"⟩, ⟨"B", "Lb", "R2"⟩] ∧
    cell_has_shared_group dataX
      (c4badchild.slots Day.monday TimeSlot.t0800) = true := by
  refine ⟨rfl, by decide, by decide⟩

/-- Witness for C4: on a concrete successful crossover, module M stays
within its requirement of 1 cell. -/
theorem claim4_witness :
    crossover goodT0 goodT0 dataD (fun _ => true) = some c4okchild ∧
    moduleScheduledSessions c4okchild "M" ≤ 1 := by
  have h : crossover goodT0 goodT0 dataD (fun _ => true) = some c4okchild :=
    rfl
  exact ⟨h, (claim4_crossover_caps_and_cell_conflicts goodT0 goodT0 dataD
    (fun _ => true) c4okchild h).1 "M" 1 rfl⟩
